import Mathlib

/-!
Verification of the libnfc frame codec and ISO14443 helper algorithms.

This development gives a shallow embedding, in Lean, of the C sources under
src/libnfc: the ISO14443 checksum helpers and UID cascade encoder
(iso14443-subr.c), the ATS historical-bytes locator (iso14443-subr.c), the
Mifare proprietary ATS pretty-printer (target-subr-helpers2.c), and the
ARYGON TAMA response-frame receiver with its abort coordinator
(drivers/arygon.c).  Bytes are modelled as Nat with explicit mod-256 /
mod-65536 truncation wherever the C performs uint8_t / uint16_t arithmetic;
buffers are Lean lists; the serial transport is a byte stream threaded
through an explicit session state.
-/

namespace Libnfc

/-! ## Checksum unit (src/libnfc/iso14443-subr.c) -/

/-- Loop body of iso14443a_crc_append (iso14443-subr.c lines 8-14).
The C keeps crc in a uint16_t and bt in a uint8_t; every assignment
truncates accordingly. -/
def iso14443a_crc_append_loop : Nat → List Nat → Nat
  | crc, [] => crc
  | crc, b :: rest =>
    let bt := (b % 256) ^^^ (crc % 256)
    let bt2 := (bt ^^^ (bt <<< 4)) % 256
    iso14443a_crc_append_loop
      (((crc >>> 8) ^^^ (bt2 <<< 8) ^^^ (bt2 <<< 3) ^^^ (bt2 >>> 4)) % 65536) rest

/-- Loop of iso14443b_crc_append (iso14443-subr.c lines 21-27); the source
duplicates the ISO14443A loop body verbatim. -/
def iso14443b_crc_append_loop : Nat → List Nat → Nat
  | crc, [] => crc
  | crc, b :: rest =>
    let bt := (b % 256) ^^^ (crc % 256)
    let bt2 := (bt ^^^ (bt <<< 4)) % 256
    iso14443b_crc_append_loop
      (((crc >>> 8) ^^^ (bt2 <<< 8) ^^^ (bt2 <<< 3) ^^^ (bt2 >>> 4)) % 65536) rest

/-- Loop of iso14443a_crc (iso14443-subr.c lines 35-41), the second,
separate-output copy of the same recurrence. -/
def iso14443a_crc_loop : Nat → List Nat → Nat
  | crc, [] => crc
  | crc, b :: rest =>
    let bt := (b % 256) ^^^ (crc % 256)
    let bt2 := (bt ^^^ (bt <<< 4)) % 256
    iso14443a_crc_loop
      (((crc >>> 8) ^^^ (bt2 <<< 8) ^^^ (bt2 <<< 3) ^^^ (bt2 >>> 4)) % 65536) rest

/-- Embedding of iso14443a_crc_append: seed 0x6363, then the two CRC bytes are
written little-endian at positions len and len+1 of the caller buffer. -/
def iso14443a_crc_append (data : List Nat) : List Nat :=
  let crc := iso14443a_crc_append_loop 0x6363 data
  data ++ [crc % 256, (crc >>> 8) % 256]

/-- Embedding of iso14443b_crc_append: seed 0xFFFF, final CRC bit-complemented
(crc = ~crc on a uint16_t equals xor with 0xFFFF) before the little-endian
write. -/
def iso14443b_crc_append (data : List Nat) : List Nat :=
  let crc0 := iso14443b_crc_append_loop 0xFFFF data
  let crc := (crc0 ^^^ 0xFFFF) % 65536
  data ++ [crc % 256, (crc >>> 8) % 256]

/-- Embedding of iso14443a_crc (separate two-byte output buffer). -/
def iso14443a_crc (data : List Nat) : List Nat :=
  let crc := iso14443a_crc_loop 0x6363 data
  [crc % 256, (crc >>> 8) % 256]

/-- Specification-side definition for claim C4, following the spec words:
run the same per-byte recurrence as the ISO14443A CRC (here the loop of
iso14443a_crc) but starting from seed 0xFFFF, and bit-complement the final
16-bit CRC before writing it little-endian. -/
def iso14443b_crc_append_specModel (data : List Nat) : List Nat :=
  let crc0 := iso14443a_crc_loop 0xFFFF data
  let crc := (crc0 ^^^ 0xFFFF) % 65536
  data ++ [crc % 256, (crc >>> 8) % 256]

/-! ## UID cascade encoder (src/libnfc/iso14443-subr.c lines 68-99) -/

/-- Helper modelling the copy loops of iso14443_cascade_uid: for each i in
the half-open range lo..hi the byte uid[i] is stored at dst[i+off]. -/
def cascade_copy (src dst : List Nat) (lo hi off : Nat) : List Nat :=
  (List.range' lo (hi - lo)).foldl (fun b i => b.set (i + off) (src.getD i 0)) dst

/-- Embedding of iso14443_cascade_uid.  The C function is void: it writes
into the caller buffer (modelled by buf, untouched positions keep their old
contents) and stores the cascaded length through an out-parameter (the second
component).  On any UID length other than 4, 7, 10 the default branch sets
the out-length to 0 and writes nothing. -/
def iso14443_cascade_uid (uid buf : List Nat) : List Nat × Nat :=
  match uid.length with
  | 4 => (cascade_copy uid buf 0 4 0, 4)
  | 7 => (cascade_copy uid (cascade_copy uid (buf.set 0 0x88) 0 3 1) 3 7 1, 8)
  | 10 =>
    let b1 := buf.set 0 0x88
    let b2 := cascade_copy uid b1 0 3 1
    let b3 := b2.set 4 0x88
    let b4 := cascade_copy uid b3 3 6 2
    (cascade_copy uid b4 6 10 2, 12)
  | _ => (buf, 0)

/-- Specification-side definition for claim C6, following the spec table in
section 4.2: lengths 4, 7, 10 produce the cascaded sequence, every other
length fails with InvalidUidLength (modelled as none). -/
def iso14443_cascade_uid_specModel (uid : List Nat) : Option (List Nat × Nat) :=
  match uid.length with
  | 4 => some (uid, 4)
  | 7 => some (0x88 :: uid, 8)
  | 10 => some (0x88 :: uid.take 3 ++ 0x88 :: uid.drop 3, 12)
  | _ => none

/-! ## ATS historical-bytes locator (src/libnfc/iso14443-subr.c lines 46-66) -/

/-- Embedding of iso14443a_locate_historical_bytes.  The returned pointer is
modelled as an optional offset into the ATS buffer; the second component is
the historical-byte count stored through pszTk. -/
def iso14443a_locate_historical_bytes (ats : List Nat) : Option Nat × Nat :=
  if ats.length < 1 then (none, 0)
  else
    let t0 := ats.getD 0 0
    let offset0 := 1
    let offset1 := if t0 &&& 0x10 ≠ 0 then offset0 + 1 else offset0
    let offset2 := if t0 &&& 0x20 ≠ 0 then offset1 + 1 else offset1
    let offset3 := if t0 &&& 0x40 ≠ 0 then offset2 + 1 else offset2
    if offset3 ≥ ats.length then (none, 0)
    else (some offset3, ats.length - offset3)

/-! ## Mifare proprietary ATS decoder (src/libnfc/target-subr-helpers2.c) -/

/-- Truncating subtraction of the C size_t type (64-bit unsigned wraparound),
used because snprint_mifare_proprietary subtracts size_t values that may
wrap. -/
def sub64 (a b : Nat) : Nat := ((a % 18446744073709551616) + 18446744073709551616 - (b % 18446744073709551616)) % 18446744073709551616

/-- Output events of snprint_mifare_proprietary.  Each constructor stands for
one snprintf family emitted by the source; the carried bytes are the values
the source formats into the string. -/
inductive MifMsg
  | tagByte
  | warnTicLen (L tk : Nat)
  | chipType (ctc : Nat)
  | memorySize (ctc : Nat)
  | chipStatus (cvc : Nat)
  | chipGeneration (cvc : Nat)
  | vcs (v : Nat)
deriving DecidableEq, Repr

/-- Embedding of snprint_mifare_proprietary (target-subr-helpers2.c lines
164-214).  The string building is abstracted to the ordered list of emitted
messages; the sub-printers for chip type, memory size, status, generation and
VCS only choose among fixed strings by masking the byte they receive, so the
events carry that byte.  The offset/length arithmetic follows the source,
including the unsigned size_t subtractions.  When the declared Type
Identification Coding length L disagrees with the remaining Tk byte count the
source emits a warning message and continues decoding; it has no error
return. -/
def snprint_mifare_proprietary (ats : List Nat) (szAtsLen offset : Nat) : List MifMsg :=
  let m0 := [MifMsg.tagByte]
  let L := ats.getD offset 0
  let o1 := offset + 1
  let m1 := if L ≠ sub64 szAtsLen o1 then m0 ++ [MifMsg.warnTicLen L (sub64 szAtsLen o1)] else m0
  let hasCTC := sub64 (sub64 szAtsLen o1) 2 ≠ 0
  let m2 := if hasCTC then m1 ++ [MifMsg.chipType (ats.getD o1 0), MifMsg.memorySize (ats.getD o1 0)] else m1
  let o2 := if hasCTC then o1 + 1 else o1
  let hasCVC := sub64 szAtsLen o2 ≠ 0
  let m3 := if hasCVC then m2 ++ [MifMsg.chipStatus (ats.getD o2 0), MifMsg.chipGeneration (ats.getD o2 0)] else m2
  let o3 := if hasCVC then o2 + 1 else o2
  if sub64 szAtsLen o3 ≠ 0 then m3 ++ [MifMsg.vcs (ats.getD o3 0)] else m3

/-! ## ARYGON TAMA receive path (src/libnfc/drivers/arygon.c) -/

/-- Events observable on the serial transport: a frame written by uart_send,
or the communication probe run by pn53x_check_communication. -/
inductive TxEv
  | frame (bytes : List Nat)
  | probe
deriving DecidableEq, Repr

/-- Session state threaded through the receive path: the pending receive
bytes of the serial port, the state of the abort observer, the pn53x
last_command counter (CHIP_DATA(pnd)->last_command), and the trace of frames
sent to the transport. -/
structure Sess where
  rx : List Nat
  abortPending : Bool
  lastCommand : Nat
  tx : List TxEv
deriving DecidableEq, Repr

/-- Failure modes of uart_receive as seen by the arygon driver. -/
inductive UartErr
  | aborted
  | timeout
deriving DecidableEq, Repr

/-- Modelled from the spec: uart_receive (uart.c is not under src/; the spec
describes the transport contract in sections 4.4 and 6).  Reading n bytes
succeeds when the stream holds at least n bytes and consumes exactly n; when
the abort observer is armed and signalled the pending receive returns
Aborted; otherwise an exhausted stream is a timeout.  The port handle and
millisecond timeout of the C signature carry no information in this model. -/
def uart_receive (n : Nat) (withAbort : Bool) (s : Sess) : Except UartErr (List Nat) × Sess :=
  if withAbort && s.abortPending then (Except.error UartErr.aborted, s)
  else if n ≤ s.rx.length then (Except.ok (s.rx.take n), { s with rx := s.rx.drop n })
  else (Except.error UartErr.timeout, s)

/-- Modelled from the spec: uart_send (uart.c is not under src/) appends the
written frame to the transport trace. -/
def uart_send (bytes : List Nat) (s : Sess) : Sess :=
  { s with tx := s.tx ++ [TxEv.frame bytes] }

/-- Modelled from the spec: pn53x_check_communication (chips/pn53x.c is not
under src/) is the lightweight communication probe of spec section 4.4,
re-issuing BuildCommand/AwaitAck for a no-op command; its integer status is
discarded by the only caller modelled here, so only the probe emission is
recorded. -/
def pn53x_check_communication (s : Sess) : Sess :=
  { s with tx := s.tx ++ [TxEv.probe] }

/-- Fixed dummy wake-up TAMA frame sent by arygon_abort (arygon.c lines
898-900). -/
def arygon_dummy_frame : List Nat :=
  [0x32, 0x00, 0x00, 0xFF, 0x09, 0xF7, 0xD4, 0x00,
   0x00, 0x6C, 0x69, 0x62, 0x6E, 0x66, 0x63, 0xBE, 0x00]

/-- Embedding of arygon_abort (arygon.c lines 888-906): send the dummy
wake-up frame, then verify communication is restored via
pn53x_check_communication. -/
def arygon_abort (s : Sess) : Sess :=
  pn53x_check_communication (uart_send arygon_dummy_frame s)

/-- Mod-256 subtraction of the C uint8_t compound assignment btDCS -= x. -/
def byteSub (a b : Nat) : Nat := (a + 256 - b % 256) % 256

/-- Data checksum recomputation of arygon_tama_receive (arygon.c lines
753-758): btDCS starts at (256 - 0xD5), then subtracts last_command + 1 and
every payload byte, all on a uint8_t. -/
def dcsCompute (lastCommand : Nat) (payload : List Nat) : Nat :=
  payload.foldl byteSub (byteSub ((256 - 0xD5) % 256) (lastCommand + 1))

/-- Error returns of arygon_tama_receive, one constructor per distinct
return path of the source.  The C collapses most of them to NFC_EIO and
distinguishes them only in the log message; invalidArgument is NFC_EINVARG,
operationAborted is NFC_EOPABORTED, extendedFrame is NFC_EDEVNOTSUPP, and
the three receive failures propagate the uart_receive status. -/
inductive RecvErr
  | invalidArgument
  | operationAborted
  | headerReceive
  | framingPreamble
  | applicationLevelError
  | extendedFrame
  | lengthChecksum
  | invalidFrameLength
  | bufferTooSmall
  | tfiReceive
  | tfiMismatch
  | commandMismatch
  | payloadReceive
  | dcsReceive
  | dcsMismatch
  | postambleMismatch
deriving DecidableEq, Repr

/-- Embedding of arygon_tama_receive (arygon.c lines 617-778).  szDataLen is
the caller buffer capacity; on success the payload bytes (the C writes them
into pbtData and returns their count) are returned.  The control flow follows
the source line by line: 5-byte header read with the abort observer armed,
abort resynchronisation, preamble check, application-error frame drain
(result of the drain read ignored, as in the source), extended-frame
rejection, length checksum, LEN lower bound, buffer capacity check, TFI and
command-code read and checks against last_command + 1, payload read (skipped
when empty), DCS and postamble read and checks. -/
def arygon_tama_receive (szDataLen : Nat) (s : Sess) : Except RecvErr (List Nat) × Sess :=
  if szDataLen = 0 then (Except.error RecvErr.invalidArgument, s) else
  match uart_receive 5 true s with
  | (Except.error UartErr.aborted, s1) => (Except.error RecvErr.operationAborted, arygon_abort s1)
  | (Except.error UartErr.timeout, s1) => (Except.error RecvErr.headerReceive, s1)
  | (Except.ok hdr, s1) =>
    if hdr.take 3 ≠ [0x00, 0x00, 0xFF] then (Except.error RecvErr.framingPreamble, s1)
    else
      let b3 := hdr.getD 3 0
      let b4 := hdr.getD 4 0
      if b3 = 0x01 ∧ b4 = 0xFF then
        (Except.error RecvErr.applicationLevelError, (uart_receive 3 false s1).2)
      else if b3 = 0xFF ∧ b4 = 0xFF then (Except.error RecvErr.extendedFrame, s1)
      else if b3 + b4 ≠ 256 then (Except.error RecvErr.lengthChecksum, s1)
      else if b3 < 2 then (Except.error RecvErr.invalidFrameLength, s1)
      else
        let len := b3 - 2
        if szDataLen < len then (Except.error RecvErr.bufferTooSmall, s1)
        else
          match uart_receive 2 false s1 with
          | (Except.error _, s2) => (Except.error RecvErr.tfiReceive, s2)
          | (Except.ok tc, s2) =>
            if tc.getD 0 0 ≠ 0xD5 then (Except.error RecvErr.tfiMismatch, s2)
            else if tc.getD 1 0 ≠ s.lastCommand + 1 then (Except.error RecvErr.commandMismatch, s2)
            else
              match (if 0 < len then uart_receive len false s2 else (Except.ok [], s2)) with
              | (Except.error _, s3) => (Except.error RecvErr.payloadReceive, s3)
              | (Except.ok payload, s3) =>
                match uart_receive 2 false s3 with
                | (Except.error _, s4) => (Except.error RecvErr.dcsReceive, s4)
                | (Except.ok de, s4) =>
                  if dcsCompute s.lastCommand payload ≠ de.getD 0 0 then
                    (Except.error RecvErr.dcsMismatch, s4)
                  else if de.getD 1 0 ≠ 0x00 then (Except.error RecvErr.postambleMismatch, s4)
                  else (Except.ok payload, s4)

/-- Correctly constructed chip-to-host response frame for a session whose
last_command is lc and whose payload is p: preamble 00 00 FF, LEN = len + 2,
LCS = 256 - LEN, TFI = 0xD5, command code lc + 1, payload, DCS, postamble
0x00 (spec section 3; this is exactly the shape arygon_tama_receive
accepts). -/
def goodResponseFrame (lc : Nat) (p : List Nat) : List Nat :=
  0x00 :: 0x00 :: 0xFF :: (p.length + 2) :: (254 - p.length) :: 0xD5 :: (lc + 1)
    :: (p ++ [dcsCompute lc p, 0x00])

/-- Single-bit flip of the byte at index j of a frame. -/
def flipBitAt (frame : List Nat) (j k : Nat) : List Nat :=
  frame.set j ((frame.getD j 0) ^^^ (2 ^ k))

/-- Sum of a byte list in ZMod 256, the algebraic shadow used to reason
about the mod-256 data checksum. -/
def zsum : List Nat → ZMod 256
  | [] => 0
  | b :: l => (b : ZMod 256) + zsum l

/-! ## Helper lemmas -/

/-- Duplicated loop of iso14443a_crc_append computes the same value as the
loop of iso14443a_crc. -/
theorem crc_append_loop_eq (l : List Nat) : ∀ crc,
    iso14443a_crc_append_loop crc l = iso14443a_crc_loop crc l := by
  induction l with
  | nil => intro crc; rfl
  | cons b rest ih =>
    intro crc
    simp only [iso14443a_crc_append_loop, iso14443a_crc_loop]
    exact ih _

/-- Duplicated loop of iso14443b_crc_append computes the same value as the
loop of iso14443a_crc. -/
theorem crc_b_loop_eq (l : List Nat) : ∀ crc,
    iso14443b_crc_append_loop crc l = iso14443a_crc_loop crc l := by
  induction l with
  | nil => intro crc; rfl
  | cons b rest ih =>
    intro crc
    simp only [iso14443b_crc_append_loop, iso14443a_crc_loop]
    exact ih _

/-- Writing a value at an index that lies past a prefix writes into the
suffix. -/
theorem list_set_append_right (l₁ l₂ : List Nat) (i v : Nat) :
    (l₁ ++ l₂).set (l₁.length + i) v = l₁ ++ l₂.set i v := by
  induction l₁ with
  | nil => simp
  | cons a t ih => simp [List.length_cons, Nat.succ_add, List.set_cons_succ, ih]

/-- Writing a value at an index inside a prefix leaves the suffix alone. -/
theorem list_set_append_left (l₁ l₂ : List Nat) (i v : Nat) (h : i < l₁.length) :
    (l₁ ++ l₂).set i v = l₁.set i v ++ l₂ := by
  induction l₁ generalizing i with
  | nil => simp at h
  | cons a t ih =>
    cases i with
    | zero => simp
    | succ n =>
      simp only [List.cons_append, List.set_cons_succ]
      rw [ih n (by simpa using Nat.lt_of_succ_lt_succ h)]

/-- Flipping one bit of a natural number changes it. -/
theorem xor_two_pow_ne (a k : Nat) : a ^^^ 2 ^ k ≠ a := by
  intro h
  have h2 : a ^^^ (a ^^^ 2 ^ k) = a ^^^ a := congrArg (a ^^^ ·) h
  rw [← Nat.xor_assoc, Nat.xor_self, Nat.zero_xor] at h2
  exact absurd h2 (Nat.two_pow_pos k).ne'

/-- Result of byteSub is a byte. -/
theorem byteSub_lt (a b : Nat) : byteSub a b < 256 :=
  Nat.mod_lt _ (by norm_num)

/-- Data checksums are bytes. -/
theorem dcsCompute_lt (lc : Nat) (p : List Nat) : dcsCompute lc p < 256 := by
  unfold dcsCompute
  have h : ∀ (l : List Nat) (a : Nat), a < 256 → l.foldl byteSub a < 256 := by
    intro l
    induction l with
    | nil => intro a ha; exact ha
    | cons b rest ih => intro a ha; exact ih _ (byteSub_lt a b)
  exact h p _ (byteSub_lt _ _)

/-- Image of byteSub in ZMod 256 is subtraction. -/
theorem byteSub_cast (a b : Nat) : ((byteSub a b : Nat) : ZMod 256) = (a : ZMod 256) - b := by
  unfold byteSub
  have hle : b % 256 ≤ a + 256 := le_trans (Nat.mod_lt b (by norm_num)).le (by omega)
  have h256 : ((256 : Nat) : ZMod 256) = 0 := by
    simpa using ZMod.natCast_self 256
  rw [ZMod.natCast_mod, Nat.cast_sub hle, Nat.cast_add, ZMod.natCast_mod, h256]
  ring

/-- Image of the dcs fold in ZMod 256. -/
theorem foldl_byteSub_cast (l : List Nat) : ∀ a : Nat,
    ((l.foldl byteSub a : Nat) : ZMod 256) = (a : ZMod 256) - zsum l := by
  induction l with
  | nil => intro a; simp [zsum]
  | cons b rest ih =>
    intro a
    simp only [List.foldl_cons, zsum]
    rw [ih (byteSub a b), byteSub_cast]
    ring

/-- Closed form of dcsCompute in ZMod 256: 0x2B minus the command code minus
the payload byte sum. -/
theorem dcsCompute_cast (lc : Nat) (p : List Nat) :
    ((dcsCompute lc p : Nat) : ZMod 256) =
      (0x2B : ZMod 256) - ((lc + 1 : Nat) : ZMod 256) - zsum p := by
  unfold dcsCompute
  rw [foldl_byteSub_cast, byteSub_cast]
  norm_num

/-- Sum over a list with one element replaced, in ZMod 256. -/
theorem zsum_set (p : List Nat) : ∀ (i v : Nat), i < p.length →
    zsum (p.set i v) = zsum p - ((p.getD i 0 : Nat) : ZMod 256) + v := by
  induction p with
  | nil => intro i v h; simp at h
  | cons a t ih =>
    intro i v h
    cases i with
    | zero => simp [List.set_cons_zero, zsum, List.getD_cons_zero]; ring
    | succ n =>
      simp only [List.set_cons_succ, zsum, List.getD_cons_succ]
      rw [ih n v (by simpa using Nat.lt_of_succ_lt_succ h)]
      ring

/-- Casting to ZMod 256 is injective below 256. -/
theorem natCast_zmod256_inj {a b : Nat} (ha : a < 256) (hb : b < 256)
    (h : (a : ZMod 256) = b) : a = b := by
  have := congrArg ZMod.val h
  rwa [ZMod.val_cast_of_lt ha, ZMod.val_cast_of_lt hb] at this

/-- Flipping one bit of one payload byte changes the data checksum. -/
theorem dcsCompute_set_ne (lc i k : Nat) (p : List Nat)
    (hp : ∀ b ∈ p, b < 256) (hi : i < p.length) (hk : k < 8) :
    dcsCompute lc (p.set i (p.getD i 0 ^^^ 2 ^ k)) ≠ dcsCompute lc p := by
  intro h
  have hcast := congrArg (fun x : Nat => (x : ZMod 256)) h
  simp only [dcsCompute_cast] at hcast
  rw [zsum_set p i _ hi] at hcast
  have hsum : ((p.getD i 0 ^^^ 2 ^ k : Nat) : ZMod 256) = ((p.getD i 0 : Nat) : ZMod 256) := by
    linear_combination -hcast
  have hmem : p.getD i 0 ∈ p := by
    have hg := List.getD_eq_getElem p 0 hi
    rw [hg]; exact List.getElem_mem hi
  have hb : p.getD i 0 < 256 := hp _ hmem
  have hx : p.getD i 0 ^^^ 2 ^ k < 256 := by
    have h2k : 2 ^ k < 256 := by
      calc 2 ^ k < 2 ^ 8 := Nat.pow_lt_pow_right (by norm_num) hk
      _ = 256 := by norm_num
    exact Nat.xor_lt_two_pow (n := 8) (by simpa using hb) (by simpa using h2k)
  exact xor_two_pow_ne (p.getD i 0) k (natCast_zmod256_inj hx hb hsum)

/-! ## Claim theorems: checksum unit -/

/-- Claim C4: iso14443b_crc_append equals the ISO14443A per-byte recurrence
run from seed 0xFFFF with the final CRC bit-complemented, written
little-endian; and for both variants the two appended bytes are exactly what
re-running the CRC computation over the data alone (which the append leaves
in place) produces. -/
theorem iso14443b_crc_relation_and_roundtrip (b : List Nat) :
    iso14443b_crc_append b = iso14443b_crc_append_specModel b
    ∧ (iso14443a_crc_append b).take b.length = b
    ∧ (iso14443a_crc_append b).drop b.length = iso14443a_crc ((iso14443a_crc_append b).take b.length)
    ∧ (iso14443b_crc_append b).take b.length = b
    ∧ (iso14443b_crc_append b).drop b.length =
        (iso14443b_crc_append ((iso14443b_crc_append b).take b.length)).drop b.length := by
  have htake_a : (iso14443a_crc_append b).take b.length = b := by
    unfold iso14443a_crc_append
    exact List.take_left b _
  have htake_b : (iso14443b_crc_append b).take b.length = b := by
    unfold iso14443b_crc_append
    exact List.take_left b _
  refine ⟨?_, htake_a, ?_, htake_b, ?_⟩
  · unfold iso14443b_crc_append iso14443b_crc_append_specModel
    rw [crc_b_loop_eq]
  · rw [htake_a]
    unfold iso14443a_crc_append iso14443a_crc
    rw [crc_append_loop_eq]
    exact List.drop_left b _
  · rw [htake_b]

/-- Claim C9: the two duplicated implementations of the seed-0x6363
recurrence agree: iso14443a_crc_append writes exactly the bytes that
iso14443a_crc computes. -/
theorem iso14443a_crc_append_refines_separate (data : List Nat) :
    iso14443a_crc_append data = data ++ iso14443a_crc data := by
  unfold iso14443a_crc_append iso14443a_crc
  rw [crc_append_loop_eq]

/-! ## Claim theorems: UID cascade encoder -/

/-- Claim C5: cascading a 4-byte UID leaves it unchanged with length 4;
a 7-byte UID becomes 0x88 followed by the seven bytes, length 8; a 10-byte
UID becomes 0x88, the first three bytes, 0x88, the remaining seven bytes,
length 12.  The caller buffer is twelve bytes z0..z11; positions the source
does not write keep their old contents. -/
theorem cascade_uid_correct (a0 a1 a2 a3 a4 a5 a6 a7 a8 a9
    z0 z1 z2 z3 z4 z5 z6 z7 z8 z9 z10 z11 : Nat) :
    iso14443_cascade_uid [a0, a1, a2, a3] [z0, z1, z2, z3, z4, z5, z6, z7, z8, z9, z10, z11]
      = ([a0, a1, a2, a3, z4, z5, z6, z7, z8, z9, z10, z11], 4)
    ∧ iso14443_cascade_uid [a0, a1, a2, a3, a4, a5, a6]
        [z0, z1, z2, z3, z4, z5, z6, z7, z8, z9, z10, z11]
      = ([0x88, a0, a1, a2, a3, a4, a5, a6, z8, z9, z10, z11], 8)
    ∧ iso14443_cascade_uid [a0, a1, a2, a3, a4, a5, a6, a7, a8, a9]
        [z0, z1, z2, z3, z4, z5, z6, z7, z8, z9, z10, z11]
      = ([0x88, a0, a1, a2, 0x88, a3, a4, a5, a6, a7, a8, a9], 12) := by
  refine ⟨rfl, rfl, rfl⟩

/-- Amended claim C6: on every UID length other than 4, 7 or 10 the encoder
returns normally with the out-length set to 0 and the caller buffer
untouched; no InvalidUidLength error value is produced (the C function is
void and has no error channel). -/
theorem cascade_uid_other_length_silent (uid buf : List Nat)
    (h4 : uid.length ≠ 4) (h7 : uid.length ≠ 7) (h10 : uid.length ≠ 10) :
    iso14443_cascade_uid uid buf = (buf, 0) := by
  unfold iso14443_cascade_uid
  split
  · omega
  · omega
  · omega
  · rfl

/-- Witness for cascade_uid_other_length_silent at the 5-byte UID
[1, 2, 3, 4, 5]. -/
theorem cascade_uid_other_length_silent_witness :
    iso14443_cascade_uid [1, 2, 3, 4, 5] [9, 9, 9] = ([9, 9, 9], 0) :=
  cascade_uid_other_length_silent [1, 2, 3, 4, 5] [9, 9, 9]
    (by decide) (by decide) (by decide)

/-- Counterexample to claim C6 as stated: at the 5-byte UID [1, 2, 3, 4, 5]
the spec (section 4.2 table, modelled by iso14443_cascade_uid_specModel)
demands an InvalidUidLength failure, but iso14443_cascade_uid returns
normally, leaving the buffer untouched and storing out-length 0; it reports
no error value to the caller. -/
theorem cascade_uid_invalid_length_counterexample :
    iso14443_cascade_uid_specModel [1, 2, 3, 4, 5] = none
    ∧ iso14443_cascade_uid [1, 2, 3, 4, 5] [9, 9, 9, 9, 9, 9, 9, 9, 9, 9, 9, 9]
        = ([9, 9, 9, 9, 9, 9, 9, 9, 9, 9, 9, 9], 0) :=
  ⟨rfl, rfl⟩

/-! ## Claim theorems: ATS historical-bytes locator -/

/-- Claim C10: the historical-bytes locator never yields an out-of-bounds
region: a none result always carries count 0, and a some result carries an
offset and count with offset + count equal to the ATS length (so the region
ends exactly at the end of the buffer) and a positive count. -/
theorem locate_historical_bytes_in_bounds (ats : List Nat) :
    ((iso14443a_locate_historical_bytes ats).1 = none →
      (iso14443a_locate_historical_bytes ats).2 = 0)
    ∧ (∀ off, (iso14443a_locate_historical_bytes ats).1 = some off →
        off + (iso14443a_locate_historical_bytes ats).2 = ats.length
        ∧ 0 < (iso14443a_locate_historical_bytes ats).2) := by
  have hcases : iso14443a_locate_historical_bytes ats = (none, 0)
      ∨ ∃ off, off < ats.length
          ∧ iso14443a_locate_historical_bytes ats = (some off, ats.length - off) := by
    unfold iso14443a_locate_historical_bytes
    dsimp only
    repeat' split
    all_goals first
      | (left; rfl)
      | (right; exact ⟨_, by omega, rfl⟩)
  rcases hcases with h | ⟨off, hlt, h⟩
  · rw [h]
    exact ⟨fun _ => rfl, fun off hoff => by simp at hoff⟩
  · rw [h]
    refine ⟨fun hnone => by simp at hnone, fun off2 hoff => ?_⟩
    simp only [Option.some.injEq] at hoff
    subst hoff
    exact ⟨by omega, by omega⟩

/-- Witness for locate_historical_bytes_in_bounds: the ATS [0x31, 5, 6, 7]
(TA1 and TB1 present) locates historical bytes at offset 3 with count 1, and
3 + 1 is the ATS length; the ATS [0x71, 1, 2] has its interface bytes consume
the whole buffer, giving none with count 0. -/
theorem locate_historical_bytes_in_bounds_witness :
    ((iso14443a_locate_historical_bytes [0x31, 5, 6, 7]).1 = some 3
      ∧ 3 + (iso14443a_locate_historical_bytes [0x31, 5, 6, 7]).2 = 4
      ∧ 0 < (iso14443a_locate_historical_bytes [0x31, 5, 6, 7]).2)
    ∧ ((iso14443a_locate_historical_bytes [0x71, 1, 2]).1 = none
      ∧ (iso14443a_locate_historical_bytes [0x71, 1, 2]).2 = 0) :=
  ⟨⟨by decide,
    by
      have h := (locate_historical_bytes_in_bounds [0x31, 5, 6, 7]).2 3 (by decide)
      exact ⟨h.1, h.2⟩⟩,
   ⟨by decide, (locate_historical_bytes_in_bounds [0x71, 1, 2]).1 (by decide)⟩⟩

/-! ## Claim theorems: Mifare proprietary ATS decoder -/

/-- Counterexample to claim C8 as stated: on the ATS [0xC1, 0x05, 0x11, 0x22]
(length 4, decode starting after the 0xC1 category byte at offset 1) the
declared Type Identification Coding length 5 does not match the 2 remaining
bytes, yet snprint_mifare_proprietary does not fail: it emits a warning
message and keeps decoding the chip version and VCS fields, returning its
message list normally; no MalformedDescriptor failure exists in the code. -/
theorem mifare_tic_mismatch_counterexample :
    snprint_mifare_proprietary [0xC1, 0x05, 0x11, 0x22] 4 1 =
      [MifMsg.tagByte, MifMsg.warnTicLen 5 2, MifMsg.chipStatus 0x11,
       MifMsg.chipGeneration 0x11, MifMsg.vcs 0x22] := by
  rfl

/-- Amended claim C8: when the declared historical-byte (Type Identification
Coding) length does not match the number of remaining bytes in the ATS
buffer, the decoder emits a length-mismatch warning message into its output
and continues; it never fails. -/
theorem mifare_tic_mismatch_warns (ats : List Nat) (szAtsLen offset : Nat)
    (h : ats.getD offset 0 ≠ sub64 szAtsLen (offset + 1)) :
    MifMsg.warnTicLen (ats.getD offset 0) (sub64 szAtsLen (offset + 1))
      ∈ snprint_mifare_proprietary ats szAtsLen offset := by
  unfold snprint_mifare_proprietary
  simp only [if_pos h]
  repeat' split
  all_goals simp [List.mem_append]

/-- Witness for mifare_tic_mismatch_warns at the ATS [0xC1, 0x05, 0x11, 0x22]
with length 4 and offset 1. -/
theorem mifare_tic_mismatch_warns_witness :
    ([0xC1, 0x05, 0x11, 0x22] : List Nat).getD 1 0 ≠ sub64 4 2
    ∧ MifMsg.warnTicLen (([0xC1, 0x05, 0x11, 0x22] : List Nat).getD 1 0) (sub64 4 2)
        ∈ snprint_mifare_proprietary [0xC1, 0x05, 0x11, 0x22] 4 1 :=
  ⟨by decide, mifare_tic_mismatch_warns [0xC1, 0x05, 0x11, 0x22] 4 1 (by decide)⟩

/-! ## Helper lemmas for the ARYGON receive path -/

/-- Reading exactly the length of a known prefix consumes that prefix. -/
theorem uart_receive_split (w : Bool) (l rest : List Nat) (s : Sess)
    (hab : s.abortPending = false) (hrx : s.rx = l ++ rest) :
    uart_receive l.length w s = (Except.ok l, { s with rx := rest }) := by
  unfold uart_receive
  rw [if_neg (by simp [hab])]
  rw [if_pos (by rw [hrx, List.length_append]; omega)]
  rw [hrx, List.take_left, List.drop_left]

/-- Transport reads never touch the last_command counter. -/
theorem uart_receive_lastCommand (m : Nat) (w : Bool) (t : Sess) :
    ((uart_receive m w t).2).lastCommand = t.lastCommand := by
  unfold uart_receive
  split
  · rfl
  · split <;> rfl

/-- Characterization of arygon_tama_receive on a stream holding one frame
with a well-formed preamble and length header: the result depends exactly on
the TFI byte, the command code, the data checksum and the postamble. -/
theorem tama_receive_wellformed (n t c d e lc : Nat) (p : List Nat) (tx0 : List TxEv)
    (hlen : p.length + 2 ≤ 255) (hcap : p.length ≤ n) (hn : n ≠ 0) :
    (arygon_tama_receive n ⟨0x00 :: 0x00 :: 0xFF :: (p.length + 2) :: (254 - p.length)
        :: t :: c :: (p ++ [d, e]), false, lc, tx0⟩).1 =
      (if t ≠ 0xD5 then Except.error RecvErr.tfiMismatch
       else if c ≠ lc + 1 then Except.error RecvErr.commandMismatch
       else if dcsCompute lc p ≠ d then Except.error RecvErr.dcsMismatch
       else if e ≠ 0x00 then Except.error RecvErr.postambleMismatch
       else Except.ok p) := by
  have h5 : uart_receive 5 true ⟨0x00 :: 0x00 :: 0xFF :: (p.length + 2) :: (254 - p.length)
      :: t :: c :: (p ++ [d, e]), false, lc, tx0⟩
      = (Except.ok [0x00, 0x00, 0xFF, p.length + 2, 254 - p.length],
         ⟨t :: c :: (p ++ [d, e]), false, lc, tx0⟩) :=
    uart_receive_split true [0x00, 0x00, 0xFF, p.length + 2, 254 - p.length]
      (t :: c :: (p ++ [d, e])) _ rfl rfl
  have h2 : uart_receive 2 false ⟨t :: c :: (p ++ [d, e]), false, lc, tx0⟩
      = (Except.ok [t, c], ⟨p ++ [d, e], false, lc, tx0⟩) :=
    uart_receive_split false [t, c] (p ++ [d, e]) _ rfl rfl
  have h3 : (if 0 < p.length
        then uart_receive p.length false ⟨p ++ [d, e], false, lc, tx0⟩
        else (Except.ok [], ⟨p ++ [d, e], false, lc, tx0⟩))
      = (Except.ok p, ⟨[d, e], false, lc, tx0⟩) := by
    by_cases hp0 : 0 < p.length
    · rw [if_pos hp0]
      exact uart_receive_split false p [d, e] _ rfl rfl
    · have hp : p = [] := List.eq_nil_of_length_eq_zero (by omega)
      subst hp
      rw [if_neg hp0]
      rfl
  have h4 : uart_receive 2 false ⟨[d, e], false, lc, tx0⟩
      = (Except.ok [d, e], ⟨[], false, lc, tx0⟩) :=
    uart_receive_split false [d, e] [] _ rfl rfl
  unfold arygon_tama_receive
  rw [if_neg hn, h5]
  dsimp only
  simp only [List.getD_cons_succ, List.getD_cons_zero, List.take_succ_cons, List.take_zero]
  rw [if_neg (by simp)]
  rw [if_neg (by omega)]
  rw [if_neg (by omega)]
  rw [if_neg (by omega)]
  rw [if_neg (by omega)]
  rw [if_neg (by omega), h2]
  dsimp only
  simp only [List.getD_cons_succ, List.getD_cons_zero, Nat.add_sub_cancel]
  by_cases ht : t = 0xD5
  · subst ht
    by_cases hc : c = lc + 1
    · subst hc
      by_cases hd : dcsCompute lc p = d
      · subst hd
        by_cases he : e = 0
        · subst he
          simp [h3, h4]
        · simp [he, h3, h4]
      · simp [hd, h3, h4]
    · simp [hc]
  · simp [ht]

/-- Byte of the good frame at a payload position. -/
theorem goodFrame_getD_payload (lc i : Nat) (p : List Nat) (hi : i < p.length) :
    (goodResponseFrame lc p).getD (7 + i) 0 = p.getD i 0 := by
  show (0x00 :: 0x00 :: 0xFF :: (p.length + 2) :: (254 - p.length) :: 0xD5 :: (lc + 1)
      :: (p ++ [dcsCompute lc p, 0x00])).getD (7 + i) 0 = p.getD i 0
  rw [show 7 + i = ((((((i + 1) + 1) + 1) + 1) + 1) + 1) + 1 from by omega]
  simp only [List.getD_cons_succ]
  exact List.getD_append _ _ 0 i hi

/-- Overwriting a payload position of the good frame. -/
theorem goodFrame_set_payload (lc i v : Nat) (p : List Nat) (hi : i < p.length) :
    (goodResponseFrame lc p).set (7 + i) v
      = 0x00 :: 0x00 :: 0xFF :: (p.length + 2) :: (254 - p.length) :: 0xD5 :: (lc + 1)
          :: (p.set i v ++ [dcsCompute lc p, 0x00]) := by
  show (0x00 :: 0x00 :: 0xFF :: (p.length + 2) :: (254 - p.length) :: 0xD5 :: (lc + 1)
      :: (p ++ [dcsCompute lc p, 0x00])).set (7 + i) v = _
  rw [show 7 + i = ((((((i + 1) + 1) + 1) + 1) + 1) + 1) + 1 from by omega]
  simp only [List.set_cons_succ]
  rw [list_set_append_left p _ i v hi]

/-- Byte of the good frame at the DCS position. -/
theorem goodFrame_getD_dcs (lc : Nat) (p : List Nat) :
    (goodResponseFrame lc p).getD (7 + p.length) 0 = dcsCompute lc p := by
  show (0x00 :: 0x00 :: 0xFF :: (p.length + 2) :: (254 - p.length) :: 0xD5 :: (lc + 1)
      :: (p ++ [dcsCompute lc p, 0x00])).getD (7 + p.length) 0 = dcsCompute lc p
  rw [show 7 + p.length = ((((((p.length + 1) + 1) + 1) + 1) + 1) + 1) + 1 from by omega]
  simp only [List.getD_cons_succ]
  rw [List.getD_append_right p _ 0 p.length (le_refl _), Nat.sub_self]
  rfl

/-- Overwriting the DCS position of the good frame. -/
theorem goodFrame_set_dcs (lc v : Nat) (p : List Nat) :
    (goodResponseFrame lc p).set (7 + p.length) v
      = 0x00 :: 0x00 :: 0xFF :: (p.length + 2) :: (254 - p.length) :: 0xD5 :: (lc + 1)
          :: (p ++ [v, 0x00]) := by
  show (0x00 :: 0x00 :: 0xFF :: (p.length + 2) :: (254 - p.length) :: 0xD5 :: (lc + 1)
      :: (p ++ [dcsCompute lc p, 0x00])).set (7 + p.length) v = _
  rw [show 7 + p.length = ((((((p.length + 1) + 1) + 1) + 1) + 1) + 1) + 1 from by omega]
  simp only [List.set_cons_succ]
  have h := list_set_append_right p [dcsCompute lc p, 0x00] 0 v
  rw [Nat.add_zero] at h
  rw [h]
  rfl

/-! ## Claim theorems: ARYGON receive path -/

/-- Claim C1: flipping any single bit of the TFI byte (frame index 5), the
command-code byte (index 6), a payload byte (indices 7 to 7 + len - 1) or
the DCS byte (index 7 + len) of a correctly constructed response frame makes
arygon_tama_receive fail with a TFI or command-code mismatch (the spec
taxonomy's UnexpectedResponse) or a data-checksum mismatch (the spec
taxonomy's ChecksumMismatch) rather than accept the frame. -/
theorem single_bit_flip_rejected (n lc j k : Nat) (p : List Nat) (tx0 : List TxEv)
    (hp : ∀ b ∈ p, b < 256) (hlen : p.length + 2 ≤ 255) (hcap : p.length ≤ n) (hn : n ≠ 0)
    (hk : k < 8)
    (hj : j = 5 ∨ j = 6 ∨ (7 ≤ j ∧ j < 7 + p.length) ∨ j = 7 + p.length) :
    ∃ err, (arygon_tama_receive n ⟨flipBitAt (goodResponseFrame lc p) j k, false, lc, tx0⟩).1
        = Except.error err
      ∧ (err = RecvErr.tfiMismatch ∨ err = RecvErr.commandMismatch
          ∨ err = RecvErr.dcsMismatch) := by
  rcases hj with hj5 | hj6 | ⟨hj7, hjlt⟩ | hjd
  · subst hj5
    have hflip : flipBitAt (goodResponseFrame lc p) 5 k
        = 0x00 :: 0x00 :: 0xFF :: (p.length + 2) :: (254 - p.length)
            :: (0xD5 ^^^ 2 ^ k) :: (lc + 1) :: (p ++ [dcsCompute lc p, 0x00]) := rfl
    rw [hflip, tama_receive_wellformed n _ _ _ _ lc p tx0 hlen hcap hn]
    refine ⟨RecvErr.tfiMismatch, ?_, Or.inl rfl⟩
    rw [if_pos (xor_two_pow_ne 0xD5 k)]
  · subst hj6
    have hflip : flipBitAt (goodResponseFrame lc p) 6 k
        = 0x00 :: 0x00 :: 0xFF :: (p.length + 2) :: (254 - p.length)
            :: 0xD5 :: ((lc + 1) ^^^ 2 ^ k) :: (p ++ [dcsCompute lc p, 0x00]) := rfl
    rw [hflip, tama_receive_wellformed n _ _ _ _ lc p tx0 hlen hcap hn]
    refine ⟨RecvErr.commandMismatch, ?_, Or.inr (Or.inl rfl)⟩
    rw [if_neg (by simp), if_pos (xor_two_pow_ne (lc + 1) k)]
  · obtain ⟨i, rfl⟩ : ∃ i, j = 7 + i := ⟨j - 7, by omega⟩
    have hilt : i < p.length := by omega
    have hflip : flipBitAt (goodResponseFrame lc p) (7 + i) k
        = 0x00 :: 0x00 :: 0xFF :: (p.length + 2) :: (254 - p.length) :: 0xD5 :: (lc + 1)
            :: (p.set i (p.getD i 0 ^^^ 2 ^ k) ++ [dcsCompute lc p, 0x00]) := by
      unfold flipBitAt
      rw [goodFrame_getD_payload lc i p hilt, goodFrame_set_payload lc i _ p hilt]
    rw [hflip]
    rw [show p.length + 2 = (p.set i (p.getD i 0 ^^^ 2 ^ k)).length + 2 from by
          rw [List.length_set]]
    rw [show (254 - p.length : Nat) = 254 - (p.set i (p.getD i 0 ^^^ 2 ^ k)).length from by
          rw [List.length_set]]
    rw [tama_receive_wellformed n _ _ _ _ lc (p.set i (p.getD i 0 ^^^ 2 ^ k)) tx0
          (by rw [List.length_set]; exact hlen) (by rw [List.length_set]; exact hcap) hn]
    refine ⟨RecvErr.dcsMismatch, ?_, Or.inr (Or.inr rfl)⟩
    rw [if_neg (by simp), if_neg (by simp),
        if_pos (dcsCompute_set_ne lc i k p hp hilt hk)]
  · subst hjd
    have hflip : flipBitAt (goodResponseFrame lc p) (7 + p.length) k
        = 0x00 :: 0x00 :: 0xFF :: (p.length + 2) :: (254 - p.length) :: 0xD5 :: (lc + 1)
            :: (p ++ [dcsCompute lc p ^^^ 2 ^ k, 0x00]) := by
      unfold flipBitAt
      rw [goodFrame_getD_dcs lc p, goodFrame_set_dcs lc _ p]
    rw [hflip, tama_receive_wellformed n _ _ _ _ lc p tx0 hlen hcap hn]
    refine ⟨RecvErr.dcsMismatch, ?_, Or.inr (Or.inr rfl)⟩
    rw [if_neg (by simp), if_neg (by simp),
        if_pos (Ne.symm (xor_two_pow_ne (dcsCompute lc p) k))]

/-- Witness for single_bit_flip_rejected: flipping bit 3 of the second
payload byte (frame index 8) of the good frame for last_command 4 and
payload [0x12, 0x34] is rejected. -/
theorem single_bit_flip_rejected_witness :
    ∃ err, (arygon_tama_receive 2
        ⟨flipBitAt (goodResponseFrame 4 [0x12, 0x34]) 8 3, false, 4, []⟩).1 = Except.error err
      ∧ (err = RecvErr.tfiMismatch ∨ err = RecvErr.commandMismatch
          ∨ err = RecvErr.dcsMismatch) :=
  single_bit_flip_rejected 2 4 8 3 [0x12, 0x34] []
    (by decide) (by decide) (by decide) (by decide) (by decide) (by decide)

set_option maxHeartbeats 1000000 in
/-- Amended claim C2: arygon_tama_receive never modifies the last_command
session counter: it is unchanged on every error return (timeout, framing
error, checksum mismatch, unexpected response, abort) and also on a
successful return.  The counter is maintained by the pn53x layer at command
send time, not by the receive path. -/
theorem tama_receive_preserves_last_command (n : Nat) (s : Sess) :
    ((arygon_tama_receive n s).2).lastCommand = s.lastCommand := by
  unfold arygon_tama_receive
  by_cases hn : n = 0
  · rw [if_pos hn]
  · rw [if_neg hn]
    rcases h5 : uart_receive 5 true s with ⟨r5, s1⟩
    have hs1 : s1.lastCommand = s.lastCommand := by
      have h := uart_receive_lastCommand 5 true s
      rw [h5] at h
      exact h
    rcases r5 with e5 | hdr
    · cases e5
      · exact hs1
      · exact hs1
    · dsimp only
      split
      · exact hs1
      · split
        · rw [uart_receive_lastCommand]
          exact hs1
        · split
          · exact hs1
          · split
            · exact hs1
            · split
              · exact hs1
              · split
                · exact hs1
                · rcases h2 : uart_receive 2 false s1 with ⟨r2, s2⟩
                  have hs2 : s2.lastCommand = s.lastCommand := by
                    have h := uart_receive_lastCommand 2 false s1
                    rw [h2] at h
                    exact h.trans hs1
                  rcases r2 with e2 | tc
                  · exact hs2
                  · dsimp only
                    split
                    · exact hs2
                    · split
                      · exact hs2
                      · rcases h3 : (if 0 < hdr.getD 3 0 - 2
                            then uart_receive (hdr.getD 3 0 - 2) false s2
                            else (Except.ok [], s2)) with ⟨r3, s3⟩
                        have hs3 : s3.lastCommand = s.lastCommand := by
                          have h : (((if 0 < hdr.getD 3 0 - 2
                              then uart_receive (hdr.getD 3 0 - 2) false s2
                              else (Except.ok [], s2))).2).lastCommand = s2.lastCommand := by
                            split
                            · exact uart_receive_lastCommand _ false s2
                            · rfl
                          rw [h3] at h
                          exact h.trans hs2
                        rcases r3 with e3 | payload
                        · exact hs3
                        · dsimp only
                          rcases h4 : uart_receive 2 false s3 with ⟨r4, s4⟩
                          have hs4 : s4.lastCommand = s.lastCommand := by
                            have h := uart_receive_lastCommand 2 false s3
                            rw [h4] at h
                            exact h.trans hs3
                          rcases r4 with e4 | de
                          · exact hs4
                          · dsimp only
                            split
                            · exact hs4
                            · split
                              · exact hs4
                              · exact hs4

/-- Counterexample to claim C2 as stated: a fully validated successful
receive (last_command 0x4A, response frame carrying command code 0x4B and
payload [0xAB]) returns the payload but leaves last_command at 0x4A; the
operation does not increment it to 0x4B. -/
theorem tama_receive_success_counterexample :
    (arygon_tama_receive 10
        ⟨[0x00, 0x00, 0xFF, 0x03, 0xFD, 0xD5, 0x4B, 0xAB, 0x35, 0x00], false, 0x4A, []⟩).1
      = Except.ok [0xAB]
    ∧ ((arygon_tama_receive 10
        ⟨[0x00, 0x00, 0xFF, 0x03, 0xFD, 0xD5, 0x4B, 0xAB, 0x35, 0x00],
          false, 0x4A, []⟩).2).lastCommand
      = 0x4A
    ∧ ((arygon_tama_receive 10
        ⟨[0x00, 0x00, 0xFF, 0x03, 0xFD, 0xD5, 0x4B, 0xAB, 0x35, 0x00],
          false, 0x4A, []⟩).2).lastCommand
      ≠ 0x4A + 1 := by
  refine ⟨rfl, rfl, by decide⟩

/-- Claim C3: when the abort observer is signalled while the blocking
5-byte header receive is pending, arygon_tama_receive sends the fixed dummy
wake-up frame and runs the communication probe (resynchronisation) and only
then returns the Aborted result: the returned session's transport trace ends
with exactly the dummy frame followed by the probe. -/
theorem abort_resync_before_aborted (n : Nat) (s : Sess)
    (hab : s.abortPending = true) (hn : n ≠ 0) :
    (arygon_tama_receive n s).1 = Except.error RecvErr.operationAborted
    ∧ ((arygon_tama_receive n s).2).tx
        = s.tx ++ [TxEv.frame arygon_dummy_frame, TxEv.probe] := by
  unfold arygon_tama_receive
  rw [if_neg hn]
  have h5 : uart_receive 5 true s = (Except.error UartErr.aborted, s) := by
    unfold uart_receive
    rw [if_pos (by simp [hab])]
  rw [h5]
  refine ⟨rfl, ?_⟩
  simp [arygon_abort, uart_send, pn53x_check_communication]

/-- Witness for abort_resync_before_aborted: an aborted receive on an empty
stream surfaces Aborted with the dummy frame and the probe on the trace. -/
theorem abort_resync_before_aborted_witness :
    (arygon_tama_receive 1 ⟨[], true, 0, []⟩).1 = Except.error RecvErr.operationAborted
    ∧ ((arygon_tama_receive 1 ⟨[], true, 0, []⟩).2).tx
        = ([] : List TxEv) ++ [TxEv.frame arygon_dummy_frame, TxEv.probe] :=
  abort_resync_before_aborted 1 ⟨[], true, 0, []⟩ rfl (by decide)

/-- Claim C7: when the declared payload length LEN - 2 exceeds the caller
buffer capacity, arygon_tama_receive fails with the buffer-too-small error
and consumes no transport bytes beyond the initial 5-byte preamble/length
header: the remaining stream is exactly what followed those 5 bytes and the
transport trace is untouched. -/
theorem buffer_too_small_before_io (n L lc : Nat) (rest : List Nat) (tx0 : List TxEv)
    (hn : n ≠ 0) (hL2 : 2 ≤ L) (hL : L ≤ 255) (hbig : n < L - 2) :
    arygon_tama_receive n ⟨0x00 :: 0x00 :: 0xFF :: L :: (256 - L) :: rest, false, lc, tx0⟩
      = (Except.error RecvErr.bufferTooSmall, ⟨rest, false, lc, tx0⟩) := by
  have h5 : uart_receive 5 true ⟨0x00 :: 0x00 :: 0xFF :: L :: (256 - L) :: rest, false, lc, tx0⟩
      = (Except.ok [0x00, 0x00, 0xFF, L, 256 - L], ⟨rest, false, lc, tx0⟩) :=
    uart_receive_split true [0x00, 0x00, 0xFF, L, 256 - L] rest _ rfl rfl
  unfold arygon_tama_receive
  rw [if_neg hn, h5]
  dsimp only
  simp only [List.getD_cons_succ, List.getD_cons_zero, List.take_succ_cons, List.take_zero]
  rw [if_neg (by simp)]
  rw [if_neg (by omega)]
  rw [if_neg (by omega)]
  rw [if_neg (by omega)]
  rw [if_neg (by omega)]
  rw [if_pos (by omega)]

/-- Witness for buffer_too_small_before_io: LEN 10 against a 1-byte caller
buffer fails with buffer-too-small leaving the 3 bytes after the header
unread. -/
theorem buffer_too_small_before_io_witness :
    arygon_tama_receive 1 ⟨0x00 :: 0x00 :: 0xFF :: 10 :: (256 - 10) :: [1, 2, 3], false, 0, []⟩
      = (Except.error RecvErr.bufferTooSmall, ⟨[1, 2, 3], false, 0, []⟩) :=
  buffer_too_small_before_io 1 10 0 [1, 2, 3] [] (by decide) (by decide) (by decide) (by decide)

end Libnfc
